import Mathlib

/-
Verification of the panorama/depth-map module (`streetget/panorama.py`).

The development shallowly embeds the computational core of `Panorama`:
byte strings are `List Nat` (Python 2 `str` is a byte string), `struct`
unpacking is modelled by functions that fail (`Option`/`Except`) exactly when
`struct.error` would be raised (slice length different from the format size),
Python list indexing is modelled with its negative-index wrap-around, and
IEEE binary32 plane parameters are carried as their raw bit patterns with a
separate bits-to-rational decoder `f32val`.
-/

/-! ## Byte-level helpers (struct '<H' and '<f' building blocks) -/

/-- Little-endian unsigned 16-bit integer from two bytes. -/
def u16le (b0 b1 : Nat) : Nat := b0 + 256 * b1

/-- Little-endian 32-bit word from four bytes (used for the raw bits of a
binary32 float, since `struct '< 4f'` reads little-endian 4-byte floats). -/
def le32 (b0 b1 b2 b3 : Nat) : Nat := b0 + 256 * b1 + 65536 * b2 + 16777216 * b3

/-- `Struct('< x 3H B').unpack(s)`: requires exactly 8 bytes; skips the pad
byte at position 0 and returns (n_planes, width, height, offset) read from
bytes 1..7.  This is `panorama.py` line 278-279. -/
def unpackHeader (s : List Nat) : Option (Nat × Nat × Nat × Nat) :=
  if s.length = 8 then
    some (u16le (s.getD 1 0) (s.getD 2 0), u16le (s.getD 3 0) (s.getD 4 0),
      u16le (s.getD 5 0) (s.getD 6 0), s.getD 7 0)
  else none

/-- `Struct('< 4f').unpack(s)`: requires exactly 16 bytes and returns the raw
bit patterns of the four little-endian binary32 floats. -/
def unpack4f (s : List Nat) : Option (Nat × Nat × Nat × Nat) :=
  if s.length = 16 then
    some (le32 (s.getD 0 0) (s.getD 1 0) (s.getD 2 0) (s.getD 3 0),
      le32 (s.getD 4 0) (s.getD 5 0) (s.getD 6 0) (s.getD 7 0),
      le32 (s.getD 8 0) (s.getD 9 0) (s.getD 10 0) (s.getD 11 0),
      le32 (s.getD 12 0) (s.getD 13 0) (s.getD 14 0) (s.getD 15 0))
  else none

/-- The value of a binary32 bit pattern as a rational number.  Normal and
denormal patterns are decoded exactly; the claims never touch exponent-255
patterns (Inf/NaN), which are mapped to 0 here. -/
def f32val (bits : Nat) : ℚ :=
  let s : Nat := bits / 2 ^ 31 % 2
  let e : Nat := bits / 2 ^ 23 % 256
  let f : Nat := bits % 2 ^ 23
  let mag : ℚ :=
    if e = 0 then (f : ℚ) / 2 ^ 149
    else if e = 255 then 0
    else if 150 ≤ e then ((2 ^ 23 + f : ℕ) : ℚ) * 2 ^ (e - 150)
    else ((2 ^ 23 + f : ℕ) : ℚ) / 2 ^ (150 - e)
  if s = 1 then -mag else mag

/-! ## Depth data decoder (`getDepthData`, lines 269-296)

The decoder below models everything after the base64/zlib stages: the input
`data` is the decompressed byte buffer.  A `DErr` value records which
statement of `getDepthData` raises the (untyped) Python exception. -/

/-- The decoded depth data `(width, height), lbls, planes` built at line 295.
Plane parameters are the raw binary32 bit patterns `((nx, ny, nz), d)`. -/
structure DepthData where
  size : Nat × Nat
  labels : List Nat
  planes : List ((Nat × Nat × Nat) × Nat)
deriving DecidableEq

/-- Which statement of `getDepthData` raises.  All of these surface in Python
as untyped exceptions (`IndexError` for `data[0]` on an empty buffer,
`struct.error` for a slice whose length differs from the format size);
`getDepthData` has no typed error of its own. -/
inductive DErr where
  | emptyData
  | headerStruct
  | labelsStruct
  | planesStruct
deriving DecidableEq

/-- The plane-reading loop (lines 288-293): `n_planes` records of 16 bytes
each, starting at `offset`; each record is 4 little-endian binary32 floats
`(nx, ny, nz, d)` stored as `((nx, ny, nz), d)`. -/
def readPlanes (data : List Nat) (offset : Nat) : Nat → Option (List ((Nat × Nat × Nat) × Nat))
  | 0 => some []
  | k + 1 =>
    match unpack4f ((data.drop offset).take 16) with
    | none => none
    | some (n0, n1, n2, d) =>
      match readPlanes data (offset + 16) k with
      | none => none
      | some ps => some (((n0, n1, n2), d) :: ps)

/-- `getDepthData` after decompression (lines 276-296):
`hsize = ord(data[0])`; `n_planes, width, height, offset` unpacked from
`data[:hsize]` with `'< x 3H B'`; `width*height` label bytes from
`data[offset:offset+n]`; then `n_planes` plane records.  No label value is
ever compared with `n_planes`. -/
def getDepthDataCore (data : List Nat) : Except DErr DepthData :=
  match data.head? with
  | none => Except.error DErr.emptyData
  | some hsize =>
    match unpackHeader (data.take hsize) with
    | none => Except.error DErr.headerStruct
    | some (nPlanes, width, height, offset) =>
      -- n = width * height label bytes from data[offset:offset+n]
      if ((data.drop offset).take (width * height)).length = width * height then
        match readPlanes data (offset + width * height) nPlanes with
        | none => Except.error DErr.planesStruct
        | some planes =>
          Except.ok ⟨(width, height), (data.drop offset).take (width * height), planes⟩
      else Except.error DErr.labelsStruct

/-- Header layout exactly as the spec's words describe it (§4.3 step 3):
byte 0 is `hsize`, and the remaining `hsize - 1` bytes contain one padding
byte, then three little-endian u16 values and one u8 value — which puts
numPlanes at bytes 2-3, width at 4-5, height at 6-7 and labelOffset at
byte 8, and needs `hsize ≥ 9`.  Defined only for comparison against the
code's `unpackHeader`. -/
def specHeader (data : List Nat) : Option (Nat × Nat × Nat × Nat) :=
  match data.head? with
  | none => none
  | some hsize =>
    if 9 ≤ hsize ∧ hsize ≤ data.length then
      some (u16le (data.getD 2 0) (data.getD 3 0), u16le (data.getD 4 0) (data.getD 5 0),
        u16le (data.getD 6 0) (data.getD 7 0), data.getD 8 0)
    else none

/-! ### Concrete buffers used by the depth-codec claims -/

/-- Header bytes declaring n_planes=1, width=2, height=2, labelOffset=8. -/
def hdr1 : List Nat := [8, 1, 0, 2, 0, 2, 0, 8]

/-- One 16-byte plane record: normal (0, 0, 1.0f), distance 5.0f
(bit patterns 0x3F800000 = 1065353216 and 0x40A00000 = 1084227584). -/
def plane1 : List Nat := [0, 0, 0, 0, 0, 0, 0, 0, 0, 0, 128, 63, 0, 0, 160, 64]

/-- A well-formed buffer with one plane and labels [0,0,0,0]. -/
def c2buf : List Nat := hdr1 ++ [0, 0, 0, 0] ++ plane1

/-- The synthetic buffer of the spec's round-trip property: n_planes=2,
width=2, height=2, labels [0,1,1,0], planes ((0,0,1), 5.0), ((1,0,0), 3.0)
(3.0f = 0x40400000 = 1077936128). -/
def c8buf : List Nat :=
  [8, 2, 0, 2, 0, 2, 0, 8] ++ [0, 1, 1, 0] ++
    [0, 0, 0, 0, 0, 0, 0, 0, 0, 0, 128, 63, 0, 0, 160, 64] ++
    [0, 0, 128, 63, 0, 0, 0, 0, 0, 0, 0, 0, 0, 0, 64, 64]

/-! ### Decoder lemmas -/

theorem unpack4f_eq_none {s : List Nat} (h : s.length ≠ 16) : unpack4f s = none := by
  simp [unpack4f, h]

theorem unpack4f_eq_some {s : List Nat} (h : s.length = 16) :
    unpack4f s =
      some (le32 (s.getD 0 0) (s.getD 1 0) (s.getD 2 0) (s.getD 3 0),
        le32 (s.getD 4 0) (s.getD 5 0) (s.getD 6 0) (s.getD 7 0),
        le32 (s.getD 8 0) (s.getD 9 0) (s.getD 10 0) (s.getD 11 0),
        le32 (s.getD 12 0) (s.getD 13 0) (s.getD 14 0) (s.getD 15 0)) := by
  simp [unpack4f, h]

theorem readPlanes_length {data : List Nat} {offset k : Nat}
    {ps : List ((Nat × Nat × Nat) × Nat)} (h : readPlanes data offset k = some ps) :
    ps.length = k := by
  induction k generalizing offset ps with
  | zero => simp [readPlanes] at h; simp [← h]
  | succ k ih =>
    rw [readPlanes] at h
    cases hu : unpack4f ((data.drop offset).take 16) with
    | none => rw [hu] at h; cases h
    | some quad =>
      obtain ⟨n0, n1, n2, d⟩ := quad
      rw [hu] at h
      cases hp : readPlanes data (offset + 16) k with
      | none => rw [hp] at h; cases h
      | some ps0 =>
        rw [hp] at h
        cases h
        simp [ih hp]

/-- Truncated plane section: if fewer than `16 * k` bytes remain at `offset`
(with at least one record expected), the plane loop raises `struct.error`. -/
theorem readPlanes_truncated (data : List Nat) :
    ∀ (k offset : Nat), 0 < k → data.length < offset + 16 * k →
      readPlanes data offset k = none := by
  intro k
  induction k with
  | zero => intro offset h; omega
  | succ k ih =>
    intro offset _ hlen
    rw [readPlanes]
    by_cases hc : data.length < offset + 16
    · have hs : ((data.drop offset).take 16).length ≠ 16 := by
        simp only [List.length_take, List.length_drop]
        omega
      rw [unpack4f_eq_none hs]
    · have hs : ((data.drop offset).take 16).length = 16 := by
        simp only [List.length_take, List.length_drop]
        omega
      rw [unpack4f_eq_some hs]
      have hk : 0 < k := by omega
      rw [ih (offset + 16) hk (by omega)]

/-- Everything a successful decode determines about the byte positions of the
header fields: the unpacked slice `data[:hsize]` has exactly 8 bytes (else
`struct.error`), numPlanes/width/height are the little-endian u16s at bytes
1-6, labelOffset is byte 7, and the labels are the `width*height` bytes at
`labelOffset`, returned verbatim. -/
theorem getDepthDataCore_ok_inv (data : List Nat) (dd : DepthData)
    (h : getDepthDataCore data = Except.ok dd) :
    ∃ hsize, data.head? = some hsize ∧ (data.take hsize).length = 8 ∧
      dd.planes.length = u16le (data.getD 1 0) (data.getD 2 0) ∧
      dd.size.1 = u16le (data.getD 3 0) (data.getD 4 0) ∧
      dd.size.2 = u16le (data.getD 5 0) (data.getD 6 0) ∧
      dd.labels = (data.drop (data.getD 7 0)).take (dd.size.1 * dd.size.2) ∧
      dd.labels.length = dd.size.1 * dd.size.2 := by
  unfold getDepthDataCore at h
  split at h
  · cases h
  next hsize hh =>
    refine ⟨hsize, hh, ?_⟩
    split at h
    · cases h
    next np w ht off hu =>
      have hlen8 : (data.take hsize).length = 8 := by
        by_contra hne
        rw [unpackHeader, if_neg hne] at hu
        cases hu
      have h8 : 8 ≤ hsize := by
        rw [List.length_take] at hlen8
        omega
    -- bytes 1..7 of the header slice are bytes 1..7 of the buffer
      have hget : ∀ i, i < 8 → (data.take hsize).getD i 0 = data.getD i 0 := by
        intro i hi
        simp only [List.getD, List.get?_eq_getElem?]
        rw [List.getElem?_take_of_lt (show i < hsize by omega)]
      rw [unpackHeader, if_pos hlen8] at hu
      have hq := Option.some.inj hu
      rw [Prod.ext_iff, Prod.ext_iff, Prod.ext_iff] at hq
      obtain ⟨hnp, hw, hht, hoff⟩ := hq
      simp only at hnp hw hht hoff
      rw [hget 1 (by omega), hget 2 (by omega)] at hnp
      rw [hget 3 (by omega), hget 4 (by omega)] at hw
      rw [hget 5 (by omega), hget 6 (by omega)] at hht
      rw [hget 7 (by omega)] at hoff
      split at h
      next hlb =>
        split at h
        · cases h
        next planes hp =>
          cases h
          refine ⟨hlen8, ?_, ?_, ?_, ?_, ?_⟩ <;> dsimp only
          · rw [readPlanes_length hp]
            exact hnp.symm
          · exact hw.symm
          · exact hht.symm
          · rw [← hoff]
          · exact hlb
      next hlb => cases h

/-- C8: decoding the synthetic well-formed buffer declaring numPlanes=2,
width=2, height=2, labels [0,1,1,0] and planes ((0,0,1), 5.0), ((1,0,0), 3.0)
reproduces exactly these dimensions, this label sequence, and these plane
records, the floats bit-exact (1.0f = 0x3F800000, 5.0f = 0x40A00000,
3.0f = 0x40400000, 0.0f = 0x0). -/
theorem c8_depth_roundtrip :
    getDepthDataCore c8buf =
      Except.ok ⟨(2, 2), [0, 1, 1, 0],
        [((0, 0, 1065353216), 1084227584), ((1065353216, 0, 0), 1077936128)]⟩ ∧
    f32val 0 = 0 ∧ f32val 1065353216 = 1 ∧ f32val 1084227584 = 5 ∧
    f32val 1077936128 = 3 := by
  refine ⟨rfl, ?_, ?_, ?_, ?_⟩ <;> norm_num [f32val]

/-- C3 counterexample: a buffer whose single label byte 5 is ≥ numPlanes = 1
is accepted by the decoder — it returns a depth map with the out-of-range
labels verbatim instead of any `DecodeError`. -/
theorem c3_label_accept_cex :
    getDepthDataCore (hdr1 ++ [5, 0, 0, 0] ++ plane1) =
      Except.ok ⟨(2, 2), [5, 0, 0, 0], [((0, 0, 1065353216), 1084227584)]⟩ := rfl

set_option maxHeartbeats 2000000 in
/-- C3 (amended): the decoder performs no label validation at all — any
4-byte label block, including values ≥ numPlanes, is returned verbatim in a
successful decode — and a plane section with fewer than `16 * numPlanes`
remaining bytes fails with an untyped `struct.error` (modelled
`DErr.planesStruct`), not a stage-named `DecodeError`. -/
theorem c3_decode_rejection_amended :
    (∀ lbls : List Nat, lbls.length = 4 →
      getDepthDataCore (hdr1 ++ lbls ++ plane1) =
        Except.ok ⟨(2, 2), lbls, [((0, 0, 1065353216), 1084227584)]⟩) ∧
    (∀ (data : List Nat) (k offset : Nat), 0 < k → data.length < offset + 16 * k →
      readPlanes data offset k = none) ∧
    getDepthDataCore (hdr1 ++ [0, 0, 0, 0] ++ [0, 0, 0, 0]) =
      Except.error DErr.planesStruct := by
  refine ⟨?_, ?_, rfl⟩
  · intro lbls h
    match lbls, h with
    | [a, b, c, d], _ =>
      simp [getDepthDataCore, hdr1, plane1, unpackHeader, unpack4f, readPlanes, u16le, le32]
  · intro data k offset hk hlen
    exact readPlanes_truncated data k offset hk hlen

/-- C3 witness: the amended theorem applied at concrete inputs — labels
[9,9,9,9] (all ≥ numPlanes = 1) decode fine, and a 1-byte buffer cannot hold
one plane record. -/
theorem c3_decode_rejection_witness :
    getDepthDataCore (hdr1 ++ [9, 9, 9, 9] ++ plane1) =
      Except.ok ⟨(2, 2), [9, 9, 9, 9], [((0, 0, 1065353216), 1084227584)]⟩ ∧
    readPlanes [0] 0 1 = none :=
  ⟨c3_decode_rejection_amended.1 [9, 9, 9, 9] rfl,
   c3_decode_rejection_amended.2.1 [0] 1 0 (by decide) (by decide)⟩

/-- C2 counterexample: the buffer `c2buf` (hsize byte 8, then bytes
1,0,2,0,2,0,8) is accepted by the decoder with numPlanes = 1 (one plane
record), read from bytes 1-2; at the spec's claimed numPlanes position
(bytes 2-3) the buffer holds 512, and the spec's layout (`specHeader`,
needing hsize ≥ 9) matches no accepted buffer at all, since the decoder's
8-byte struct forces the fields into bytes 1-7. -/
theorem c2_header_layout_cex :
    getDepthDataCore c2buf =
      Except.ok ⟨(2, 2), [0, 0, 0, 0], [((0, 0, 1065353216), 1084227584)]⟩ ∧
    u16le (c2buf.getD 2 0) (c2buf.getD 3 0) = 512 ∧
    specHeader c2buf = none :=
  ⟨rfl, rfl, rfl⟩

/-- C2 (amended): in every buffer the decoder accepts, the slice
`data[:data[0]]` has exactly 8 bytes (the `'< x 3H B'` struct size — the
padding byte of the format overlays the hsize byte itself), numPlanes is the
little-endian u16 at bytes 1-2, width at bytes 3-4, height at bytes 5-6, and
labelOffset is byte 7; the label array is read at `labelOffset` with
`width*height` bytes. -/
theorem c2_header_layout_amended (data : List Nat) (dd : DepthData)
    (h : getDepthDataCore data = Except.ok dd) :
    ∃ hsize, data.head? = some hsize ∧ (data.take hsize).length = 8 ∧
      dd.planes.length = u16le (data.getD 1 0) (data.getD 2 0) ∧
      dd.size.1 = u16le (data.getD 3 0) (data.getD 4 0) ∧
      dd.size.2 = u16le (data.getD 5 0) (data.getD 6 0) ∧
      dd.labels = (data.drop (data.getD 7 0)).take (dd.size.1 * dd.size.2) ∧
      dd.labels.length = dd.size.1 * dd.size.2 :=
  getDepthDataCore_ok_inv data dd h

set_option maxHeartbeats 2000000 in
/-- C2 witness: the amended theorem applied to the concrete accepted buffer
`c2buf` and its decode result. -/
theorem c2_header_layout_witness :
    ∃ hsize, c2buf.head? = some hsize ∧ (c2buf.take hsize).length = 8 ∧
      (([((0, 0, 1065353216), 1084227584)] : List ((Nat × Nat × Nat) × Nat)).length =
        u16le (c2buf.getD 1 0) (c2buf.getD 2 0)) ∧
      ((2, 2) : Nat × Nat).1 = u16le (c2buf.getD 3 0) (c2buf.getD 4 0) ∧
      ((2, 2) : Nat × Nat).2 = u16le (c2buf.getD 5 0) (c2buf.getD 6 0) ∧
      ([0, 0, 0, 0] : List Nat) =
        (c2buf.drop (c2buf.getD 7 0)).take (((2, 2) : Nat × Nat).1 * ((2, 2) : Nat × Nat).2) ∧
      ([0, 0, 0, 0] : List Nat).length = ((2, 2) : Nat × Nat).1 * ((2, 2) : Nat × Nat).2 :=
  c2_header_layout_amended c2buf
    ⟨(2, 2), [0, 0, 0, 0], [((0, 0, 1065353216), 1084227584)]⟩ rfl

/-! ## Zoom geometry tables (`numTiles` lines 393-408, `cropSize` lines 410-427)

Both methods index a fixed 6-entry Python list with the zoom argument.
Python list indexing accepts negative indices (wrapping from the end) and
raises an untyped `IndexError` otherwise, which `pyIndex` models. -/

/-- Python `l[i]`: wrap-around for `-len <= i < 0`, `IndexError` (none)
outside `[-len, len)`. -/
def pyIndex {α : Type} (l : List α) (i : Int) : Option α :=
  if 0 ≤ i then l[i.toNat]?
  else if -(l.length : Int) ≤ i then l[(i + l.length).toNat]?
  else none

/-- The tile-grid table of `numTiles`. -/
def numTilesT : List (Nat × Nat) := [(1, 1), (2, 1), (4, 2), (7, 4), (13, 7), (26, 13)]

/-- The crop-box table of `cropSize` (left, top, right, bottom). -/
def cropSizeT : List (Nat × Nat × Nat × Nat) :=
  [(0, 0, 417, 208), (0, 0, 833, 416), (0, 0, 1665, 832), (0, 0, 3329, 1664),
    (0, 0, 6656, 3328), (0, 0, 13312, 6656)]

/-- `numTiles(zoom)` — `[(1,1),...,(26,13)][zoom]`. -/
def numTiles (zoom : Int) : Option (Nat × Nat) := pyIndex numTilesT zoom

/-- `cropSize(zoom)` — `[(0,0,417,208),...,(0,0,13312,6656)][zoom]`. -/
def cropSize (zoom : Int) : Option (Nat × Nat × Nat × Nat) := pyIndex cropSizeT zoom

/-- Out-of-range behaviour of Python list indexing: for `i < 0` or
`len <= i` the result is the wrapped entry when `-len <= i < 0` and
`IndexError` (none) otherwise. -/
theorem pyIndex_out_of_range {α : Type} (l : List α) (z : Int)
    (h : z < 0 ∨ (l.length : Int) ≤ z) :
    pyIndex l z = if -(l.length : Int) ≤ z ∧ z < 0 then l[(z + l.length).toNat]? else none := by
  unfold pyIndex
  rcases h with h | h
  · rw [if_neg (by omega)]
    by_cases h6 : -(l.length : Int) ≤ z
    · rw [if_pos h6, if_pos ⟨h6, h⟩]
    · rw [if_neg h6, if_neg (by tauto)]
  · rw [if_pos (by omega), if_neg (by omega)]
    exact List.getElem?_eq_none (by omega)

/-- C6 counterexample: zoom = -1 is outside [0,5], yet both `numTiles` and
`cropSize` silently return the zoom-5 table entries (Python negative
indexing), instead of any `InvalidZoom` failure. -/
theorem c6_zoom_cex :
    numTiles (-1) = some (26, 13) ∧ cropSize (-1) = some (0, 0, 13312, 6656) := by decide

/-- C6 (amended): for zoom outside [0,5], `numTiles` and `cropSize` raise an
untyped `IndexError` (none; no `InvalidZoom` type exists in the code) only
when zoom > 5 or zoom < -6; for -6 ≤ zoom ≤ -1 they silently return the
table entry at index zoom+6. -/
theorem c6_zoom_amended (z : Int) (h : z < 0 ∨ 5 < z) :
    numTiles z = (if -6 ≤ z ∧ z < 0 then numTilesT[(z + 6).toNat]? else none) ∧
    cropSize z = (if -6 ≤ z ∧ z < 0 then cropSizeT[(z + 6).toNat]? else none) := by
  have hn : (numTilesT.length : Int) = 6 := by simp [numTilesT]
  have hc : (cropSizeT.length : Int) = 6 := by simp [cropSizeT]
  constructor
  · rw [numTiles, pyIndex_out_of_range numTilesT z (by omega), hn]
  · rw [cropSize, pyIndex_out_of_range cropSizeT z (by omega), hc]

/-- C6 witness: the amended theorem applied at zoom = -1 (and the branch
evaluated: the wrapped entry is the zoom-5 one). -/
theorem c6_zoom_witness :
    (numTiles (-1) = if -6 ≤ (-1 : Int) ∧ (-1 : Int) < 0 then numTilesT[((-1 : Int) + 6).toNat]? else none) ∧
    (cropSize (-1) = if -6 ≤ (-1 : Int) ∧ (-1 : Int) < 0 then cropSizeT[((-1 : Int) + 6).toNat]? else none) :=
  c6_zoom_amended (-1) (Or.inl (by decide))

/-! ## Depth image rendering size (`getDepthImg` lines 298-349,
`saveDepthImage` lines 375-390)

After `plt.imsave` the raster has the depth array's dimensions (w, h); then
`if zoom:` — Python truthiness, false for both `None` and `0` — optionally
resizes to the width/height of `cropSize(zoom)` with `Image.NEAREST`.
The returned pair is the final image size plus whether the nearest-neighbour
resize ran. -/

def getDepthImgSize (w h : Nat) (zoom : Option Int) : Option ((Nat × Nat) × Bool) :=
  match zoom with
  | none => some ((w, h), false)
  | some z =>
    if z ≠ 0 then
      match cropSize z with
      | none => none          -- IndexError from cropSize escapes
      | some (_, _, cw, ch) => some ((cw, ch), true)
    else some ((w, h), false)

/-- C10: `if zoom:` treats zoom=0 like zoom=None — the resize step is
skipped and the raster keeps its native rendered size — while every zoom in
1..5 resizes (nearest-neighbour) to the width/height of `cropSize(zoom)`. -/
theorem c10_zoom_falsy (w h : Nat) :
    getDepthImgSize w h (some 0) = some ((w, h), false) ∧
    getDepthImgSize w h none = some ((w, h), false) ∧
    (∀ z : Int, 1 ≤ z → z ≤ 5 →
      ∃ cw ch, cropSize z = some (0, 0, cw, ch) ∧
        getDepthImgSize w h (some z) = some ((cw, ch), true)) := by
  refine ⟨rfl, rfl, ?_⟩
  intro z h1 h5
  interval_cases z <;> exact ⟨_, _, rfl, rfl⟩

/-- C10 witness: the theorem applied at the native size 512×256 with zoom 0
(no resize) and zoom 5 (resize to 13312×6656). -/
theorem c10_zoom_falsy_witness :
    getDepthImgSize 512 256 (some 0) = some ((512, 256), false) ∧
    (∃ cw ch, cropSize 5 = some (0, 0, cw, ch) ∧
      getDepthImgSize 512 256 (some 5) = some ((cw, ch), true)) :=
  ⟨(c10_zoom_falsy 512 256).1, (c10_zoom_falsy 512 256).2.2 5 (by decide) (by decide)⟩

/-! ## Depth projection per-pixel arithmetic (`getDepthImg` lines 308-332)

The per-pixel computation is `d / np.abs(np.sum(v * n, axis=2))` after
`d[d == 0] = np.nan`.  `RVal` models the IEEE special values the numpy
float64 pipeline produces (NaN propagation; nonzero/zero division giving a
signed infinity; 0/0 giving NaN).  The ray dot product `np.sum(v * n)` of a
pixel is taken as a parameter: the claims either quantify over it or pin it
to an exact 0 (the idealized value of cos(pi/2)). -/

inductive RVal where
  | nan
  | pinf
  | ninf
  | fin (q : ℚ)
deriving DecidableEq

/-- `np.abs` on an IEEE value. -/
def rabs : RVal → RVal
  | .nan => .nan
  | .pinf => .pinf
  | .ninf => .pinf
  | .fin q => .fin |q|

/-- IEEE float64 division as numpy performs it elementwise (array ops warn
rather than raise): NaN propagates; x/0 is a signed infinity for x ≠ 0 and
NaN for 0/0; finite/infinite is 0. -/
def rdiv : RVal → RVal → RVal
  | .nan, _ => .nan
  | _, .nan => .nan
  | .pinf, .pinf => .nan
  | .pinf, .ninf => .nan
  | .ninf, .pinf => .nan
  | .ninf, .ninf => .nan
  | .pinf, .fin b => if b < 0 then .ninf else .pinf
  | .ninf, .fin b => if b < 0 then .pinf else .ninf
  | .fin _, .pinf => .fin 0
  | .fin _, .ninf => .fin 0
  | .fin a, .fin b =>
    if b = 0 then (if a = 0 then .nan else if a < 0 then .ninf else .pinf)
    else .fin (a / b)

/-- Line 329: `d[d == 0] = np.nan` — a plane distance of exactly 0 becomes
the NaN no-data sentinel before the division. -/
def sentinelD (d : ℚ) : RVal := if d = 0 then .nan else .fin d

/-- Line 332 for one pixel: the pixel's plane distance `d` divided by the
absolute dot product of its ray direction with its plane normal. -/
def depthPixel (d : ℚ) (dot : RVal) : RVal := rdiv (sentinelD d) (rabs dot)

/-- C5 counterexample: the pixel of the spec's scenario — plane distance 5.0
and a ray exactly orthogonal to the normal (dot = 0, the ideal value of
cos(pi/2) for pitch = pi/2 against normal (0,0,1)) — evaluates to +infinity,
which is not the NaN no-data sentinel the projection uses for missing
data. -/
theorem c5_projection_cex :
    depthPixel 5 (RVal.fin 0) = RVal.pinf ∧ RVal.pinf ≠ RVal.nan := by
  constructor
  · simp [depthPixel, sentinelD, rabs, rdiv]
  · simp

/-- C5 (amended): a pixel whose plane has distance 0 yields the NaN no-data
sentinel regardless of its ray (NaN propagates through the division), but a
pixel with nonzero distance whose ray dot product is exactly 0 yields
+infinity — no divide-by-zero crash, yet not the NaN no-data sentinel
either.  (With the actual binary64 trigonometry, cos(pi/2) is not even
exactly 0, so that pixel comes out as a large finite value.) -/
theorem c5_projection_amended :
    (∀ dot : RVal, depthPixel 0 dot = RVal.nan) ∧
    depthPixel 5 (RVal.fin 0) = RVal.pinf := by
  constructor
  · intro dot
    cases dot <;> simp [depthPixel, sentinelD, rabs, rdiv]
  · simp [depthPixel, sentinelD, rabs, rdiv]

/-! ## Depth data serialization (`saveDepthData` lines 351-373)

`json.dump(self.depthdata, f)` serializes the Python value
`((width, height), lbls, planes)` — a 3-tuple — and `json` maps tuples to
JSON arrays, ints to numbers and floats to numbers.  `Json` is the abstract
syntax of the emitted document. -/

inductive Json where
  | num (q : ℚ)
  | arr (items : List Json)
  | obj (fields : List (String × Json))

/-- Whether a JSON document is an object (`{...}`). -/
def isObj : Json → Bool
  | .obj _ => true
  | _ => false

/-- The JSON document `json.dump` writes for a decoded `depthdata` tuple:
`[[width, height], [l0, l1, ...], [[[nx, ny, nz], d], ...]]`, with each
binary32 plane parameter serialized at its exact value. -/
def jsonOfDepthData (dd : DepthData) : Json :=
  Json.arr [
    Json.arr [Json.num dd.size.1, Json.num dd.size.2],
    Json.arr (dd.labels.map fun b => Json.num b),
    Json.arr (dd.planes.map fun p =>
      Json.arr [Json.arr [Json.num (f32val p.1.1), Json.num (f32val p.1.2.1),
        Json.num (f32val p.1.2.2)], Json.num (f32val p.2)])]

/-- The decode result of `c2buf`, used to instantiate the serialization
claims at a concrete depth map. -/
def dd2 : DepthData := ⟨(2, 2), [0, 0, 0, 0], [((0, 0, 1065353216), 1084227584)]⟩

/-- C7 counterexample: for a concrete decoded buffer, the document
`saveDepthData` writes is not a JSON object at all (so it has no "size" /
"labels" / "planes" keys): `json.dump` of the `((w,h), lbls, planes)` tuple
emits a 3-element array. -/
theorem c7_save_format_cex :
    (getDepthDataCore c2buf).map (fun dd => isObj (jsonOfDepthData dd)) = Except.ok false := rfl

/-- C7 (amended): for every decoded depth map, `saveDepthData` writes the
serialized form of the 3-element JSON array
`[[width, height], labels, planes]` (positional, exactly as the function's
own docstring documents) — not an object with keys — where the labels
element is the row-major list of `width*height` label ints and the planes
element lists `[[nx, ny, nz], d]` per plane. -/
theorem c7_save_format_amended (data : List Nat) (dd : DepthData)
    (h : getDepthDataCore data = Except.ok dd) :
    isObj (jsonOfDepthData dd) = false ∧
    jsonOfDepthData dd = Json.arr [
      Json.arr [Json.num dd.size.1, Json.num dd.size.2],
      Json.arr (dd.labels.map fun b => Json.num b),
      Json.arr (dd.planes.map fun p =>
        Json.arr [Json.arr [Json.num (f32val p.1.1), Json.num (f32val p.1.2.1),
          Json.num (f32val p.1.2.2)], Json.num (f32val p.2)])] ∧
    dd.labels.length = dd.size.1 * dd.size.2 := by
  refine ⟨rfl, rfl, ?_⟩
  obtain ⟨hs, h1, h2, h3, h4, h5, h6, h7⟩ := getDepthDataCore_ok_inv data dd h
  exact h7

/-- C7 witness: the amended theorem applied to `c2buf` and its decode
result `dd2`. -/
theorem c7_save_format_witness :
    isObj (jsonOfDepthData dd2) = false ∧
    jsonOfDepthData dd2 = Json.arr [
      Json.arr [Json.num dd2.size.1, Json.num dd2.size.2],
      Json.arr (dd2.labels.map fun b => Json.num b),
      Json.arr (dd2.planes.map fun p =>
        Json.arr [Json.arr [Json.num (f32val p.1.1), Json.num (f32val p.1.2.1),
          Json.num (f32val p.1.2.2)], Json.num (f32val p.2)])] ∧
    dd2.labels.length = dd2.size.1 * dd2.size.2 :=
  c7_save_format_amended c2buf dd2 rfl

/-! ## Base64 stage of `getDepthData` (lines 270-274)

`encoded += '=' * (len(encoded) % 4)`, then `'-' -> '+'`, `'_' -> '/'`, then
Python 2 `str.decode('base64')`, whose backing `binascii.a2b_base64` is the
lenient CPython decoder: characters outside the alphabet are skipped, a pad
character at quad position 3 — or at quad position 2 when the next valid
character is also a pad — terminates the input (discarding leftover bits),
and leftover bits at the end of input raise `binascii.Error` ("Incorrect
padding").  Bytes of the encoded string are ASCII codes
('=' 61, '-' 45, '_' 95, '+' 43, '/' 47). -/

/-- The standard base64 alphabet value of a byte, none for every byte the
decoder skips. -/
def b64Index (c : Nat) : Option Nat :=
  if 65 ≤ c ∧ c ≤ 90 then some (c - 65)
  else if 97 ≤ c ∧ c ≤ 122 then some (c - 97 + 26)
  else if 48 ≤ c ∧ c ≤ 57 then some (c - 48 + 52)
  else if c = 43 then some 62
  else if c = 47 then some 63
  else none

/-- `binascii_find_valid`: the first character from the list that is either
in the alphabet or a pad. -/
def findNextValid (l : List Nat) : Option Nat :=
  l.find? (fun c => c == 61 || (b64Index c).isSome)

/-- The a2b_base64 scanner state: quad position, leftover bit accumulator,
leftover bit count, and the output bytes (reversed). -/
structure B64St where
  q : Nat
  lc : Nat
  lb : Nat
  out : List Nat

/-- One non-pad character of the a2b_base64 main loop: skipped unless in the
alphabet; otherwise 6 bits are appended and a byte is emitted once 8 bits
are available. -/
def a2bStep (st : B64St) (c : Nat) : B64St :=
  match b64Index c with
  | none => st
  | some v =>
    let lc := st.lc * 64 + v
    let lb := st.lb + 6
    if 8 ≤ lb then ⟨(st.q + 1) % 4, lc % 2 ^ (lb - 8), lb - 8, lc / 2 ^ (lb - 8) :: st.out⟩
    else ⟨(st.q + 1) % 4, lc, lb, st.out⟩

/-- The full a2b_base64 scan: pad handling with the quad-position rules, and
the "Incorrect padding" error when bits are left over at the end. -/
def a2bAux : List Nat → B64St → Option (List Nat)
  | [], st => if st.lb = 0 then some st.out.reverse else none
  | c :: rest, st =>
    if c = 61 then
      if st.q < 2 then a2bAux rest st
      else if st.q = 2 then
        match findNextValid rest with
        | some c2 => if c2 = 61 then some st.out.reverse else a2bAux rest st
        | none => a2bAux rest st
      else some st.out.reverse
    else a2bAux rest (a2bStep st c)

/-- Python 2 `s.decode('base64')`. -/
def a2b (s : List Nat) : Option (List Nat) := a2bAux s ⟨0, 0, 0, []⟩

/-- Line 272: `encoded += '=' * (len(encoded) % 4)`. -/
def pyPad (s : List Nat) : List Nat := s ++ List.replicate (s.length % 4) 61

/-- The character map of line 273: `'-' -> '+'`, `'_' -> '/'`. -/
def trChar (c : Nat) : Nat := if c = 45 then 43 else if c = 95 then 47 else c

/-- Line 273: `encoded.replace('-', '+').replace('_', '/')`. -/
def pyTranslate (s : List Nat) : List Nat := s.map trChar

/-- Lines 272-273 composed in source order (pad first, then translate). -/
def pyRestore (s : List Nat) : List Nat := pyTranslate (pyPad s)

/-- A valid URL-safe base64 blob as the metadata supplies it: unpadded,
every byte in the URL-safe alphabet, and a length that is not ≡ 1 (mod 4)
(no base64 encoding has such a length). -/
def isUrlSafeChar (c : Nat) : Bool :=
  (65 ≤ c && c ≤ 90) || (97 ≤ c && c ≤ 122) || (48 ≤ c && c ≤ 57) || c == 45 || c == 95

def validUrlSafeB64 (s : List Nat) : Bool :=
  s.all isUrlSafeChar && decide (s.length % 4 ≠ 1)

/-- Valid *standard* base64, as the spec's words require of the restored
string: length a multiple of 4, at most two trailing pads, and everything
before them in the standard alphabet.  Defined for comparison with what
`pyRestore` produces. -/
def validStdBase64 (s : List Nat) : Bool :=
  decide (s.length % 4 = 0) &&
    decide ((s.reverse.takeWhile (fun c => c == 61)).length ≤ 2) &&
    (s.take (s.length - (s.reverse.takeWhile (fun c => c == 61)).length)).all
      (fun c => (b64Index c).isSome)

/-! ### Scanner lemmas -/

theorem a2bAux_append (xs ys : List Nat) (st : B64St) (hx : ∀ c ∈ xs, c ≠ 61) :
    a2bAux (xs ++ ys) st = a2bAux ys (xs.foldl a2bStep st) := by
  induction xs generalizing st with
  | nil => rfl
  | cons c xs ih =>
    have hc : c ≠ 61 := hx c (by simp)
    rw [List.cons_append, List.foldl_cons, a2bAux, if_neg hc]
    exact ih _ (fun d hd => hx d (by simp [hd]))

/-- State invariant of the scanner over alphabet-only input: the quad
position advances with every character, and the leftover bit count is
determined by the quad position (0, 6, 4, 2 bits at positions 0, 1, 2, 3). -/
theorem foldl_a2bStep_state (xs : List Nat) (st : B64St)
    (hx : ∀ c ∈ xs, (b64Index c).isSome = true)
    (hq : st.q < 4) (hlb : st.lb = (8 - 2 * st.q) % 8) :
    (xs.foldl a2bStep st).q = (st.q + xs.length) % 4 ∧
    (xs.foldl a2bStep st).lb = (8 - 2 * ((st.q + xs.length) % 4)) % 8 := by
  induction xs generalizing st with
  | nil =>
    simp only [List.foldl_nil, List.length_nil, Nat.add_zero]
    rw [Nat.mod_eq_of_lt hq]
    exact ⟨rfl, hlb⟩
  | cons c xs ih =>
    obtain ⟨v, hv⟩ := Option.isSome_iff_exists.mp (hx c (by simp))
    have hq4 : st.q = 0 ∨ st.q = 1 ∨ st.q = 2 ∨ st.q = 3 := by omega
    have hq' : (a2bStep st c).q = (st.q + 1) % 4 := by
      rw [a2bStep, hv]
      dsimp only
      split <;> rfl
    have hlb' : (a2bStep st c).lb = (8 - 2 * ((st.q + 1) % 4)) % 8 := by
      rw [a2bStep, hv]
      dsimp only
      rcases hq4 with h0 | h0 | h0 | h0 <;> rw [h0] at hlb <;> rw [h0] <;>
        norm_num [hlb]
    have hmain := ih (a2bStep st c) (fun d hd => hx d (by simp [hd]))
      (by rw [hq']; omega) (by rw [hq', hlb'])
    rw [List.foldl_cons, List.length_cons]
    constructor
    · rw [hmain.1, hq', Nat.mod_add_mod]
      ring_nf
    · rw [hmain.2, hq', Nat.mod_add_mod]
      ring_nf

theorem b64Index_61 : b64Index 61 = none := by decide

theorem b64Index_trChar (c : Nat) (h : isUrlSafeChar c = true) :
    (b64Index (trChar c)).isSome = true := by
  simp only [isUrlSafeChar, Bool.or_eq_true, Bool.and_eq_true, decide_eq_true_eq,
    beq_iff_eq] at h
  unfold trChar b64Index
  split_ifs <;> simp_all

theorem takeWhile_eq_nil {p : Nat → Bool} {l : List Nat} (h : ∀ c ∈ l, p c = false) :
    l.takeWhile p = [] := by
  cases l with
  | nil => rfl
  | cons c l => simp [List.takeWhile_cons, h c (by simp)]

theorem takeWhile_replicate_append (k : Nat) (l : List Nat) :
    List.takeWhile (fun c => c == 61) (List.replicate k 61 ++ l) =
      List.replicate k 61 ++ List.takeWhile (fun c => c == 61) l := by
  induction k with
  | zero => simp
  | succ k ih => simp [List.replicate_succ, List.takeWhile_cons, ih]

/-- What `validStdBase64` reduces to on an alphabet-only body followed by
`m` pads. -/
theorem validStd_eval (t : List Nat) (m : Nat)
    (ht : ∀ c ∈ t, (b64Index c).isSome = true) :
    validStdBase64 (t ++ List.replicate m 61) =
      (decide ((t.length + m) % 4 = 0) && decide (m ≤ 2)) := by
  have ht61 : ∀ c ∈ t, (c == 61) = false := by
    intro c hc
    have hcs := ht c hc
    simp only [beq_eq_false_iff_ne, ne_eq]
    rintro rfl
    rw [b64Index_61] at hcs
    cases hcs
  have hk : ((t ++ List.replicate m 61).reverse.takeWhile (fun c => c == 61)).length = m := by
    rw [List.reverse_append, List.reverse_replicate, takeWhile_replicate_append,
      takeWhile_eq_nil (fun c hc => ht61 c (List.mem_reverse.mp hc))]
    simp
  have hlen : (t ++ List.replicate m 61).length = t.length + m := by simp
  have hbody : (t ++ List.replicate m 61).take t.length = t := List.take_left t _
  rw [validStdBase64, hk]
  have hsub : (t ++ List.replicate m 61).length - m = t.length := by
    rw [hlen]
    omega
  rw [hsub, hbody, hlen]
  have hall : t.all (fun c => (b64Index c).isSome) = true := List.all_eq_true.mpr ht
  rw [hall, Bool.and_true]

/-- C4 counterexample: "YWI" (bytes [89,87,73]) is a valid unpadded URL-safe
base64 blob (it encodes "ab"), but line 272 appends `len % 4 = 3` pads
instead of the 1 pad standard base64 needs, so the restored string "YWI==="
is not valid standard base64 — the lenient Python 2 decoder still accepts
it. -/
theorem c4_base64_cex :
    validUrlSafeB64 [89, 87, 73] = true ∧
    validStdBase64 (pyRestore [89, 87, 73]) = false ∧
    a2b (pyRestore [89, 87, 73]) = some [97, 98] := by decide

/-- C4 (amended): the first stage restores the standard alphabet
('-' to '+', '_' to '/') and appends `len % 4` pad characters.  The result
is valid standard base64 exactly when `len % 4 ≠ 3`; when `len % 4 = 3`
three pads are appended where standard base64 needs one.  In every case the
lenient `binascii.a2b_base64` decoder accepts the result and produces the
same bytes as the correctly padded string (any true decode failure raises an
untyped `binascii.Error`, not a typed `DecodeError`). -/
theorem c4_base64_amended (s : List Nat) (h : validUrlSafeB64 s = true) :
    validStdBase64 (pyRestore s) = decide (s.length % 4 ≠ 3) ∧
    a2b (pyRestore s) = a2b (pyTranslate s ++ List.replicate ((4 - s.length % 4) % 4) 61) ∧
    (a2b (pyRestore s)).isSome = true := by
  rw [validUrlSafeB64, Bool.and_eq_true, List.all_eq_true, decide_eq_true_eq] at h
  obtain ⟨hall, hlen1⟩ := h
  have htlen : (pyTranslate s).length = s.length := by simp [pyTranslate]
  have htAlpha : ∀ c ∈ pyTranslate s, (b64Index c).isSome = true := by
    intro c hc
    rw [pyTranslate, List.mem_map] at hc
    obtain ⟨c0, hc0, rfl⟩ := hc
    exact b64Index_trChar c0 (hall c0 hc0)
  have htNe61 : ∀ c ∈ pyTranslate s, c ≠ 61 := by
    intro c hc heq
    have hcs := htAlpha c hc
    rw [heq, b64Index_61] at hcs
    cases hcs
  have h61 : trChar 61 = 61 := by norm_num [trChar]
  have hsplit : pyRestore s = pyTranslate s ++ List.replicate (s.length % 4) 61 := by
    rw [pyRestore, pyPad, pyTranslate, pyTranslate, List.map_append, List.map_replicate, h61]
  have hst := foldl_a2bStep_state (pyTranslate s) ⟨0, 0, 0, []⟩ htAlpha
    (by norm_num) (by norm_num)
  simp only [htlen, Nat.zero_add] at hst
  have hm4 : s.length % 4 < 4 := Nat.mod_lt _ (by omega)
  have hm : s.length % 4 = 0 ∨ s.length % 4 = 2 ∨ s.length % 4 = 3 := by omega
  rcases hm with hm | hm | hm
  · refine ⟨?_, ?_, ?_⟩
    · rw [hsplit, hm, validStd_eval _ _ htAlpha, htlen]
      simp [hm, Nat.add_zero, Nat.add_mod, hm]
    · rw [hsplit, hm]
    · rw [hsplit, hm, a2b, a2bAux_append _ _ _ htNe61]
      have hlb : ((pyTranslate s).foldl a2bStep ⟨0, 0, 0, []⟩).lb = 0 := by
        rw [hst.2, hm]
      simp [a2bAux, hlb]
  · have h20 : (s.length + 2) % 4 = 0 := by omega
    refine ⟨?_, ?_, ?_⟩
    · rw [hsplit, hm, validStd_eval _ _ htAlpha, htlen]
      simp [h20]
    · rw [hsplit, hm]
    · rw [hsplit, hm, a2b, a2bAux_append _ _ _ htNe61]
      have hq2 : ((pyTranslate s).foldl a2bStep ⟨0, 0, 0, []⟩).q = 2 := by
        rw [hst.1, hm]
      simp [a2bAux, hq2, show findNextValid [61] = some 61 from rfl,
        show List.replicate 2 61 = [61, 61] from rfl]
  · have hq3 : ((pyTranslate s).foldl a2bStep ⟨0, 0, 0, []⟩).q = 3 := by
      rw [hst.1, hm]
    refine ⟨?_, ?_, ?_⟩
    · rw [hsplit, hm, validStd_eval _ _ htAlpha, htlen]
      have h32 : ¬(3 ≤ 2) := by omega
      have h30 : (s.length + 3) % 4 = 2 := by omega
      simp [h30, hm]
    · rw [hsplit, hm, a2b, a2b, a2bAux_append _ _ _ htNe61, a2bAux_append _ _ _ htNe61]
      simp [a2bAux, hq3, show List.replicate 3 61 = [61, 61, 61] from rfl,
        show ((4 - 3) % 4 : Nat) = 1 from rfl, show List.replicate 1 61 = [61] from rfl]
    · rw [hsplit, hm, a2b, a2bAux_append _ _ _ htNe61]
      simp [a2bAux, hq3, show List.replicate 3 61 = [61, 61, 61] from rfl]

/-- C4 witness: the amended theorem applied to the blob "YWI" (length ≡ 3
mod 4). -/
theorem c4_base64_witness :
    validStdBase64 (pyRestore [89, 87, 73]) =
      decide (([89, 87, 73] : List Nat).length % 4 ≠ 3) ∧
    a2b (pyRestore [89, 87, 73]) =
      a2b (pyTranslate [89, 87, 73] ++
        List.replicate ((4 - ([89, 87, 73] : List Nat).length % 4) % 4) 61) ∧
    (a2b (pyRestore [89, 87, 73])).isSome = true :=
  c4_base64_amended [89, 87, 73] (by decide)

/-! ## Tile fetching and stitching (`getImage` lines 190-245)

A tile is a 512×512 raster; an image is a raster with a size.  `getImage`
computes the grid from `numTiles(zoom)`, fetches one tile per grid cell into
`tiles[y + th*x]` through a worker pool, waits on `q.join()`, pastes
`tiles[y + th*x]` at pixel offset `(512*x, 512*y)` into a
`(512*tw, 512*th)` canvas and crops to `cropSize(zoom)`.

Failure model: if any `getTile` call raises, the exception escapes the
worker before its `q.task_done()`, so the queue's unfinished count never
reaches zero and `q.join()` blocks forever — deterministically, whatever the
thread count.  `getImage` therefore either returns the stitched image (all
fetches succeed), hangs (`GetImageOutcome.hang`, some fetch raised), or
propagates the untyped `IndexError` of `numTiles` (none).  The worker-pool
scheduling itself is irrelevant to the result: each cell `y + th*x` is
written by exactly one task, so the array after `q.join()` is the same as
after a sequential loop, which `runWorkers` performs.  (`isCustom`
panoramas, which raise `NotImplementedError` up front, are outside this
model.) -/

structure Tile where
  px : Nat → Nat → Nat

structure Img where
  w : Nat
  h : Nat
  px : Nat → Nat → Nat

/-- PIL `Image.paste(t, (ox, oy))` for a 512×512 tile on a canvas. -/
def pasteT (base : Img) (t : Tile) (ox oy : Nat) : Img :=
  ⟨base.w, base.h, fun p q =>
    if ox ≤ p ∧ p < ox + 512 ∧ oy ≤ q ∧ q < oy + 512 then t.px (p - ox) (q - oy)
    else base.px p q⟩

/-- PIL `Image.crop((0, 0, cw, ch))`. -/
def cropImg (img : Img) (cw ch : Nat) : Img :=
  ⟨cw, ch, fun p q => if p < cw ∧ q < ch then img.px p q else 0⟩

/-- `itertools.product(range(tw), range(th))` — x outer, y inner. -/
def grid (tw th : Nat) : List (Nat × Nat) :=
  (List.range tw).flatMap (fun x => (List.range th).map (fun y => (x, y)))

/-- The tile array after `q.join()`: `tiles = tw*th*[None]`, then
`tiles[y + th*x] = getTile(x, y, zoom)` once per grid cell. -/
def runWorkers (fetch : Nat → Nat → Option Tile) (tw th : Nat) : List (Option Tile) :=
  (grid tw th).foldl (fun ts xy => ts.set (xy.2 + th * xy.1) (fetch xy.1 xy.2))
    (List.replicate (tw * th) none)

/-- Lines 238-242: `Image.new('RGB', (512*tw, 512*th))` (black), then
`pano.paste(tiles[y + th*x], (512*x, 512*y))` over the grid. -/
def stitchTiles (tiles : List (Option Tile)) (tw th : Nat) : Img :=
  (grid tw th).foldl
    (fun pano xy =>
      match tiles.getD (xy.2 + th * xy.1) none with
      | some t => pasteT pano t (512 * xy.1) (512 * xy.2)
      | none => pano)
    ⟨512 * tw, 512 * th, fun _ _ => 0⟩

inductive GetImageOutcome where
  | image (img : Img)
  | hang

/-- `getImage(zoom)` with the tile source as a parameter (`fetch x y = none`
means `getTile(x, y, zoom)` raises). -/
def getImage (fetch : Nat → Nat → Option Tile) (zoom : Int) : Option GetImageOutcome :=
  match numTiles zoom with
  | none => none
  | some (tw, th) =>
    if (grid tw th).all (fun xy => (fetch xy.1 xy.2).isSome) then
      match cropSize zoom with
      | none => none
      | some (_, _, cw, ch) =>
        some (GetImageOutcome.image (cropImg (stitchTiles (runWorkers fetch tw th) tw th) cw ch))
    else some GetImageOutcome.hang

/-! ### Grid and fold lemmas -/

theorem mem_grid {tw th : Nat} {p : Nat × Nat} :
    p ∈ grid tw th ↔ p.1 < tw ∧ p.2 < th := by
  obtain ⟨x, y⟩ := p
  simp [grid, List.mem_flatMap, List.mem_map, List.mem_range, eq_comm]

theorem foldSet_untouched (f : Nat → Nat → Option Tile) (th : Nat)
    (L : List (Nat × Nat)) (init : List (Option Tile)) (i : Nat)
    (h : ∀ p ∈ L, p.2 + th * p.1 ≠ i) :
    (L.foldl (fun ts xy => ts.set (xy.2 + th * xy.1) (f xy.1 xy.2)) init)[i]? = init[i]? := by
  induction L generalizing init with
  | nil => rfl
  | cons hd tl ih =>
    rw [List.foldl_cons, ih _ (fun p hp => h p (by simp [hp]))]
    exact List.getElem?_set_ne (h hd (by simp))

theorem foldSet_get (f : Nat → Nat → Option Tile) (th : Nat)
    (L : List (Nat × Nat)) (init : List (Option Tile)) (x y : Nat)
    (hmem : (x, y) ∈ L)
    (huniq : ∀ p ∈ L, p.2 + th * p.1 = y + th * x → p = (x, y))
    (hlen : y + th * x < init.length) :
    (L.foldl (fun ts xy => ts.set (xy.2 + th * xy.1) (f xy.1 xy.2)) init)[y + th * x]? =
      some (f x y) := by
  induction L generalizing init with
  | nil => cases hmem
  | cons hd tl ih =>
    rw [List.foldl_cons]
    by_cases hhd : hd = (x, y)
    · subst hhd
      by_cases htl : (x, y) ∈ tl
      · exact ih _ htl (fun p hp => huniq p (List.mem_cons_of_mem _ hp))
          (by rw [List.length_set]; exact hlen)
      · rw [foldSet_untouched f th tl _ _ ?_]
        · exact List.getElem?_set_eq_of_lt _ hlen
        · intro p hp he
          exact htl (huniq p (List.mem_cons_of_mem _ hp) he ▸ hp)
    · have hxytl : (x, y) ∈ tl := by
        rcases List.mem_cons.mp hmem with h | h
        · exact absurd h.symm hhd
        · exact h
      exact ih _ hxytl (fun p hp => huniq p (List.mem_cons_of_mem _ hp))
        (by rw [List.length_set]; exact hlen)

theorem grid_idx_unique {tw th x y : Nat} (hx : x < tw) (hy : y < th) :
    ∀ p ∈ grid tw th, p.2 + th * p.1 = y + th * x → p = (x, y) := by
  intro p hp he
  obtain ⟨hp1, hp2⟩ := mem_grid.mp hp
  obtain ⟨px, py⟩ := p
  have hth : 0 < th := by omega
  have e1 : (py + th * px) / th = px := by
    rw [Nat.add_mul_div_left _ _ hth, Nat.div_eq_of_lt hp2]
    omega
  have e2 : (y + th * x) / th = x := by
    rw [Nat.add_mul_div_left _ _ hth, Nat.div_eq_of_lt hy]
    omega
  have e3 : (py + th * px) % th = py := by
    rw [Nat.add_mul_mod_self_left, Nat.mod_eq_of_lt hp2]
  have e4 : (y + th * x) % th = y := by
    rw [Nat.add_mul_mod_self_left, Nat.mod_eq_of_lt hy]
  have hpx : px = x := by rw [← e1, ← e2, he]
  have hpy : py = y := by rw [← e3, ← e4, he]
  simp [hpx, hpy]

theorem runWorkers_get (fetch : Nat → Nat → Option Tile) (tw th x y : Nat)
    (hx : x < tw) (hy : y < th) :
    (runWorkers fetch tw th)[y + th * x]? = some (fetch x y) := by
  apply foldSet_get fetch th _ _ x y (mem_grid.mpr ⟨hx, hy⟩) (grid_idx_unique hx hy)
  rw [List.length_replicate]
  have h1 : y + th * x < th * (x + 1) := by
    have : th * (x + 1) = th * x + th := by ring
    omega
  have h2 : th * (x + 1) ≤ th * tw := Nat.mul_le_mul_left th hx
  have h3 : th * tw = tw * th := Nat.mul_comm th tw
  omega

/-- One paste of the stitching loop, with the tile taken from a total tile
assignment (the all-success case). -/
def pasteStep (tileOf : Nat × Nat → Tile) (pano : Img) (xy : Nat × Nat) : Img :=
  pasteT pano (tileOf xy) (512 * xy.1) (512 * xy.2)

theorem foldPaste_dims (tileOf : Nat × Nat → Tile) (L : List (Nat × Nat)) (pano : Img) :
    (L.foldl (pasteStep tileOf) pano).w = pano.w ∧
    (L.foldl (pasteStep tileOf) pano).h = pano.h := by
  induction L generalizing pano with
  | nil => exact ⟨rfl, rfl⟩
  | cons hd tl ih => exact (ih (pasteStep tileOf pano hd))

theorem foldPaste_untouched (tileOf : Nat × Nat → Tile) (L : List (Nat × Nat))
    (pano : Img) (p q : Nat)
    (h : ∀ xy ∈ L, ¬(512 * xy.1 ≤ p ∧ p < 512 * xy.1 + 512 ∧
      512 * xy.2 ≤ q ∧ q < 512 * xy.2 + 512)) :
    (L.foldl (pasteStep tileOf) pano).px p q = pano.px p q := by
  induction L generalizing pano with
  | nil => rfl
  | cons hd tl ih =>
    rw [List.foldl_cons, ih _ (fun xy hxy => h xy (by simp [hxy]))]
    exact if_neg (h hd (by simp))

theorem foldPaste_hit (tileOf : Nat × Nat → Tile) (L : List (Nat × Nat))
    (pano : Img) (x y dx dy : Nat)
    (hmem : (x, y) ∈ L) (hdx : dx < 512) (hdy : dy < 512)
    (huniq : ∀ xy ∈ L, (512 * xy.1 ≤ 512 * x + dx ∧ 512 * x + dx < 512 * xy.1 + 512 ∧
      512 * xy.2 ≤ 512 * y + dy ∧ 512 * y + dy < 512 * xy.2 + 512) → xy = (x, y)) :
    (L.foldl (pasteStep tileOf) pano).px (512 * x + dx) (512 * y + dy) =
      (tileOf (x, y)).px dx dy := by
  induction L generalizing pano with
  | nil => cases hmem
  | cons hd tl ih =>
    rw [List.foldl_cons]
    by_cases hhd : hd = (x, y)
    · subst hhd
      by_cases htl : (x, y) ∈ tl
      · exact ih _ htl (fun xy hxy => huniq xy (List.mem_cons_of_mem _ hxy))
      · rw [foldPaste_untouched tileOf tl _ _ _ ?_]
        · show (pasteT pano (tileOf (x, y)) (512 * x) (512 * y)).px _ _ = _
          rw [pasteT]
          dsimp only
          rw [if_pos (by omega)]
          congr 1 <;> omega
        · intro xy hxy hcond
          exact htl (huniq xy (List.mem_cons_of_mem _ hxy) hcond ▸ hxy)
    · have hxytl : (x, y) ∈ tl := by
        rcases List.mem_cons.mp hmem with h | h
        · exact absurd h.symm hhd
        · exact h
      exact ih _ hxytl (fun xy hxy => huniq xy (List.mem_cons_of_mem _ hxy))

theorem region_unique {tw th x y dx dy : Nat} (hx : x < tw) (hy : y < th)
    (hdx : dx < 512) (hdy : dy < 512) :
    ∀ xy ∈ grid tw th, (512 * xy.1 ≤ 512 * x + dx ∧ 512 * x + dx < 512 * xy.1 + 512 ∧
      512 * xy.2 ≤ 512 * y + dy ∧ 512 * y + dy < 512 * xy.2 + 512) → xy = (x, y) := by
  intro xy hxy hcond
  obtain ⟨px, py⟩ := xy
  obtain ⟨h1, h2, h3, h4⟩ := hcond
  have hpx : px = x := by omega
  have hpy : py = y := by omega
  simp [hpx, hpy]

/-- On the all-success path the stitching loop is a plain paste fold over the
fetched tiles. -/
theorem stitch_eq_fold (fetch : Nat → Nat → Option Tile) (tw th : Nat)
    (tileOf : Nat × Nat → Tile)
    (htile : ∀ x y, x < tw → y < th → fetch x y = some (tileOf (x, y))) :
    stitchTiles (runWorkers fetch tw th) tw th =
      (grid tw th).foldl (pasteStep tileOf) ⟨512 * tw, 512 * th, fun _ _ => 0⟩ := by
  rw [stitchTiles]
  apply List.foldl_ext
  intro pano xy hxy
  obtain ⟨h1, h2⟩ := mem_grid.mp hxy
  have hget : (runWorkers fetch tw th).getD (xy.2 + th * xy.1) none = some (tileOf xy) := by
    have hx := runWorkers_get fetch tw th xy.1 xy.2 h1 h2
    simp only [List.getD, List.get?_eq_getElem?]
    rw [hx, htile xy.1 xy.2 h1 h2]
    rfl
  rw [hget]
  rfl

/-- C9: for every zoom in [0,5], when all tile fetches succeed, `getImage`
assembles a pre-crop canvas of exactly (512·tilesX, 512·tilesY) pixels with
the tile fetched for grid coordinate (x, y) pasted at pixel offset
(512·x, 512·y), and returns that canvas cropped to `cropSize(zoom)`. -/
theorem c9_stitch_geometry (zoom : Int) (fetch : Nat → Nat → Option Tile)
    (tw th cw ch : Nat) (hz : 0 ≤ zoom ∧ zoom ≤ 5)
    (hnt : numTiles zoom = some (tw, th))
    (hcs : cropSize zoom = some (0, 0, cw, ch))
    (hall : ∀ x y, x < tw → y < th → (fetch x y).isSome = true) :
    ∃ canvas : Img,
      getImage fetch zoom = some (GetImageOutcome.image (cropImg canvas cw ch)) ∧
      canvas.w = 512 * tw ∧ canvas.h = 512 * th ∧
      ∀ x y dx dy (t : Tile), x < tw → y < th → dx < 512 → dy < 512 →
        fetch x y = some t →
        canvas.px (512 * x + dx) (512 * y + dy) = t.px dx dy := by
  have hcond : (grid tw th).all (fun xy => (fetch xy.1 xy.2).isSome) = true := by
    rw [List.all_eq_true]
    intro xy hxy
    obtain ⟨h1, h2⟩ := mem_grid.mp hxy
    exact hall _ _ h1 h2
  have htile : ∀ x y, x < tw → y < th →
      fetch x y = some ((fetch x y).getD ⟨fun _ _ => 0⟩) := by
    intro x y h1 h2
    cases hf : fetch x y with
    | none =>
      have hs := hall x y h1 h2
      rw [hf] at hs
      simp at hs
    | some t => rfl
  have heq := stitch_eq_fold fetch tw th
    (fun xy => (fetch xy.1 xy.2).getD ⟨fun _ _ => 0⟩) (fun x y h1 h2 => htile x y h1 h2)
  refine ⟨stitchTiles (runWorkers fetch tw th) tw th, ?_, ?_, ?_, ?_⟩
  · rw [getImage, hnt]
    dsimp only
    rw [if_pos hcond, hcs]
  · rw [heq]
    exact (foldPaste_dims _ _ _).1
  · rw [heq]
    exact (foldPaste_dims _ _ _).2
  · intro x y dx dy t h1 h2 hdx hdy ht
    rw [heq, foldPaste_hit _ _ _ x y dx dy (mem_grid.mpr ⟨h1, h2⟩) hdx hdy
      (region_unique h1 h2 hdx hdy)]
    dsimp only
    rw [ht]
    rfl

/-- A deterministic 512×512 test tile and an always-succeeding tile source
for the witness. -/
def oneTile : Tile := ⟨fun i j => i + 513 * j⟩

def fetchOne : Nat → Nat → Option Tile := fun _ _ => some oneTile

/-- C9 witness: the theorem applied at zoom 0 (grid 1×1, crop 417×208) with
a constant tile source. -/
theorem c9_stitch_geometry_witness :
    ∃ canvas : Img,
      getImage fetchOne 0 = some (GetImageOutcome.image (cropImg canvas 417 208)) ∧
      canvas.w = 512 * 1 ∧ canvas.h = 512 * 1 ∧
      ∀ x y dx dy (t : Tile), x < 1 → y < 1 → dx < 512 → dy < 512 →
        fetchOne x y = some t →
        canvas.px (512 * x + dx) (512 * y + dy) = t.px dx dy :=
  c9_stitch_geometry 0 fetchOne 1 1 417 208 ⟨by decide, by decide⟩ rfl rfl
    (fun _ _ _ _ => rfl)

/-- C1: when a tile fetch fails, `getImage` does not return any
`FetchError` — no such error type exists in the code at all; the failed
worker dies before calling `q.task_done()`, so `q.join()` blocks forever and
the call never returns (and produces no bitmap).  Evaluated here at zoom 0
with a tile source whose fetch of (0,0) raises. -/
theorem c1_fetch_failure_hangs :
    getImage (fun _ _ => none) 0 = some GetImageOutcome.hang := rfl
